import Mathlib

/-!
Shallow embedding of `pkg/chartutil/jsonschema.go` (Helm's values/schema
validation core): the recursive tree validator `ValidateAgainstSchema`, the
per-node router `ValidateAgainstSingleSchema`, and the dialect dispatch
`validateUsingNewValidator`.  The two third-party validation engines
(`xeipuuv/gojsonschema`, the legacy engine, and
`santhosh-tekuri/jsonschema/v6`, the modern engine) are abstracted as an
`Engines` record of oracle functions; everything the repository's own code
does — serialization, null substitution, dialect routing, error formatting,
aggregation, panic recovery, and the unchecked type assertion in the tree
walk — is embedded faithfully.
-/

namespace Helm

/-- A JSON value; models the Go `interface{}` values Helm decodes from
YAML/JSON (`map[string]interface{}`, `[]interface{}`, scalars, nil). -/
inductive JValue where
  | null
  | boolean (b : Bool)
  | num (n : Int)
  | str (s : String)
  | arr (elems : List JValue)
  | obj (fields : List (String × JValue))

/-- A `[]byte` document abstracted by its JSON parse status: either bytes
that are not valid JSON at all, or bytes whose JSON parse is `v`. -/
inductive JsonBytes where
  | malformed (raw : String)
  | wellFormed (v : JValue)

/-- `map[string]interface{}`; `none` models a nil Go map (which serializes
to the JSON `null` document and on which every lookup misses). -/
abbrev Values := Option (List (String × JValue))

/-- Key lookup in a decoded JSON object used as a Go map (keys of a Go map
are unique, so first match suffices). -/
def lookupField : List (String × JValue) → String → Option JValue
  | [], _ => none
  | (k, v) :: rest, key => if k = key then some v else lookupField rest key

/-- The decoding loop of `json.Unmarshal` into the partial schema struct
(one string field tagged `$schema`): fields are decoded in order, a later
`$schema` string overwrites an earlier one, and a non-string `$schema`
value aborts decoding with an error (discarded by the caller), keeping the
value decoded so far. -/
def extractSchemaLoop : List (String × JValue) → String → String
  | [], acc => acc
  | (k, v) :: rest, acc =>
    if k = "$schema" then
      match v with
      | .str s => extractSchemaLoop rest s
      | _ => acc
    else extractSchemaLoop rest acc

/-- Models `json.Unmarshal(schemaJSON, &partialSchema)` with its error
discarded (jsonschema.go lines 106–110): malformed bytes or a non-object
document leave the `Schema` field empty. -/
def extractSchemaField : JsonBytes → String
  | .malformed _ => ""
  | .wellFormed (.obj fields) => extractSchemaLoop fields ""
  | .wellFormed _ => ""

/-- The two observations the dialect router makes of a parsed URL:
`url.Host` and `url.EscapedPath()`. -/
structure GoURL where
  host : String
  path : String
deriving DecidableEq

/-- Splits a character list at the first `"://"`, returning the scheme part
and the remainder. -/
def splitSchemeRest : List Char → Option (List Char × List Char)
  | [] => none
  | ':' :: '/' :: '/' :: rest => some ([], rest)
  | c :: rest =>
    match splitSchemeRest rest with
    | some (sch, r) => some (c :: sch, r)
    | none => none

/-- Models Go `net/url.Parse` restricted to the two observations the router
makes (`Host`, `EscapedPath()`): parsing fails on ASCII control characters
(as in Go); in `scheme://authority/path…` the authority is the host and the
path runs from the first `/` to the first `?` or `#`; a string without
`://` parses with an empty host.  Userinfo/port splitting and percent-escape
validation are not modelled — the router only compares the result against
the three `json-schema.org` draft URIs, on which the models agree. -/
def parseURL (s : String) : Option GoURL :=
  let cs := s.toList
  if cs.any (fun c => c < ' ' || c = '\x7f') then none
  else
    match splitSchemeRest cs with
    | some (_, rest) =>
      let host := rest.takeWhile (fun c => !(c = '/' || c = '?' || c = '#'))
      let after := rest.dropWhile (fun c => !(c = '/' || c = '?' || c = '#'))
      let path := after.takeWhile (fun c => !(c = '?' || c = '#'))
      some ⟨String.mk host, String.mk path⟩
    | none =>
      some ⟨"", String.mk (cs.takeWhile (fun c => !(c = '?' || c = '#')))⟩

/-- The legacy carve-out paths of jsonschema.go lines 119–126. -/
def legacyDraftPaths : List String :=
  ["/draft-04/schema", "/draft-06/schema", "/draft-07/schema"]

/-- Outcome of one call into third-party library code: a normal return or a
runtime panic carrying the fault's description. -/
inductive PRes (α : Type) where
  | ok (a : α)
  | panicked (msg : String)

/-- The return of `gojsonschema.Validate(schemaLoader, valuesLoader)`: a
non-nil error, or a `Result` whose `Errors()` descriptions are listed in the
engine's reporting order (`Valid()` holds iff the list is empty); `panicked`
models a runtime fault inside the library call. -/
inductive LegacyResult where
  | err (msg : String)
  | result (descs : List String)
  | panicked (msg : String)
deriving DecidableEq

/-- The behaviour of the two third-party validation engines, abstracted as
oracle functions.  `legacyValidate` takes the schema document then the
values document (gojsonschema).  `D` is the modern engine's parsed-document
type and `V` its compiled-validator type; `unmarshalJSON`, `addResource`,
`compile` and `validate` model `jsonschema/v6`'s `UnmarshalJSON`,
`Compiler.AddResource`, `Compiler.Compile` (of the previously registered
resource) and `Schema.Validate`, each of which may return an error or
panic. -/
structure Engines (D V : Type) where
  legacyValidate : JsonBytes → JsonBytes → LegacyResult
  unmarshalJSON : JsonBytes → PRes (Except String D)
  addResource : String → D → PRes (Except String Unit)
  compile : String → PRes (Except String V)
  validate : V → D → PRes (Option String)

/-- One engine invocation, recorded in the order the code makes it. -/
inductive Ev where
  | legacy
  | unmarshalSchema
  | unmarshalValues
  | addResource (id : String)
  | compile (id : String)
  | modernValidate
deriving DecidableEq

/-- Whether an event is a call into the modern engine. -/
def Ev.isModern : Ev → Bool
  | .legacy => false
  | _ => true

/-- The synthetic in-memory resource identifier of jsonschema.go lines
138–143. -/
def fixedResourceID : String := "file:///values.schema.json"

/-- The `(bool, error)` return of `validateUsingNewValidator`, with a third
alternative for a panic escaping the call (to be recovered by the caller's
deferred handler). -/
inductive VOut where
  | notProcessed
  | processed (e : Option String)
  | panicked (msg : String)
deriving DecidableEq

/-- jsonschema.go lines 105–148 (`validateUsingNewValidator`): extract the
declared `$schema` dialect (unmarshal error discarded); an empty dialect, an
unparsable URI, or a `json-schema.org` draft-04/06/07 URI returns
`(false, nil)` without touching the modern engine; otherwise the modern
engine unmarshals the schema, unmarshals the values, registers the schema
under `fixedResourceID`, compiles it and validates, returning `(true, err)`
at the first failing step.  The first component is the trace of engine calls
made. -/
def validateUsingNewValidator {D V : Type} (E : Engines D V)
    (valuesJSON schemaJSON : JsonBytes) : List Ev × VOut :=
  let decl := extractSchemaField schemaJSON
  if decl = "" then ([], .notProcessed)
  else
    match parseURL decl with
    | none => ([], .notProcessed)
    | some u =>
      if u.host = "json-schema.org" && legacyDraftPaths.contains u.path then
        ([], .notProcessed)
      else
        match E.unmarshalJSON schemaJSON with
        | .panicked m => ([.unmarshalSchema], .panicked m)
        | .ok (.error e) => ([.unmarshalSchema], .processed (some e))
        | .ok (.ok schema) =>
          match E.unmarshalJSON valuesJSON with
          | .panicked m => ([.unmarshalSchema, .unmarshalValues], .panicked m)
          | .ok (.error e) =>
            ([.unmarshalSchema, .unmarshalValues], .processed (some e))
          | .ok (.ok values) =>
            match E.addResource fixedResourceID schema with
            | .panicked m =>
              ([.unmarshalSchema, .unmarshalValues, .addResource fixedResourceID],
               .panicked m)
            | .ok (.error e) =>
              ([.unmarshalSchema, .unmarshalValues, .addResource fixedResourceID],
               .processed (some e))
            | .ok (.ok _) =>
              match E.compile fixedResourceID with
              | .panicked m =>
                ([.unmarshalSchema, .unmarshalValues, .addResource fixedResourceID,
                  .compile fixedResourceID], .panicked m)
              | .ok (.error e) =>
                ([.unmarshalSchema, .unmarshalValues, .addResource fixedResourceID,
                  .compile fixedResourceID], .processed (some e))
              | .ok (.ok validator) =>
                match E.validate validator values with
                | .panicked m =>
                  ([.unmarshalSchema, .unmarshalValues, .addResource fixedResourceID,
                    .compile fixedResourceID, .modernValidate], .panicked m)
                | .ok e =>
                  ([.unmarshalSchema, .unmarshalValues, .addResource fixedResourceID,
                    .compile fixedResourceID, .modernValidate], .processed e)

/-- Models `yaml.Marshal` followed by `yaml.YAMLToJSON` on a `Values` map
(jsonschema.go lines 68–75): a nil map serializes to the JSON `null`
document, any other map to the corresponding JSON object document.  For the
JSON-representable values modelled here the conversion is total, so the two
early error returns of the source are unreachable. -/
def serializeValues : Values → JsonBytes
  | none => .wellFormed .null
  | some entries => .wellFormed (.obj entries)

/-- The check `bytes.Equal(valuesJSON, []byte("null"))`: exactly the JSON
`null` document serializes to the bytes `null`. -/
def isNullDocument : JsonBytes → Bool
  | .wellFormed .null => true
  | _ => false

/-- jsonschema.go lines 68–78: serialize the values and substitute the empty
object document for a null document. -/
def effectiveValuesJSON (values : Values) : JsonBytes :=
  let valuesJSON := serializeValues values
  if isNullDocument valuesJSON then .wellFormed (.obj []) else valuesJSON

/-- The legacy engine's violation rendering (jsonschema.go lines 94–96): one
line per violation description, each prefixed with a dash and a space. -/
def renderViolations : List String → String
  | [] => ""
  | d :: rest => "- " ++ d ++ "\n" ++ renderViolations rest

/-- jsonschema.go lines 61–103 (`ValidateAgainstSingleSchema`): convert the
values, hand off to `validateUsingNewValidator`, and fall back to the legacy
gojsonschema engine when the document was not processed.  The deferred
`recover` of lines 62–66 turns any panic into the error
`unable to validate schema: <fault>`, so no panic escapes — which the
return type (no panic alternative) makes structural.  The first component
is the trace of engine calls made. -/
def ValidateAgainstSingleSchema {D V : Type} (E : Engines D V)
    (values : Values) (schemaJSON : JsonBytes) : List Ev × Option String :=
  let valuesJSON := effectiveValuesJSON values
  match validateUsingNewValidator E valuesJSON schemaJSON with
  | (tr, .processed e) => (tr, e)
  | (tr, .panicked m) => (tr, some ("unable to validate schema: " ++ m))
  | (tr, .notProcessed) =>
    match E.legacyValidate schemaJSON valuesJSON with
    | .panicked m => (tr ++ [.legacy], some ("unable to validate schema: " ++ m))
    | .err m => (tr ++ [.legacy], some m)
    | .result [] => (tr ++ [.legacy], none)
    | .result (d :: rest) => (tr ++ [.legacy], some (renderViolations (d :: rest)))

/-- `pkg/chart.Chart` restricted to the three observations
`ValidateAgainstSchema` makes of it: `Name()`, `Schema` (nil or schema
bytes) and `Dependencies()` (in slice order). -/
inductive Chart where
  | mk (name : String) (schema : Option JsonBytes) (dependencies : List Chart)

/-- `chrt.Name()`. -/
def Chart.name : Chart → String
  | .mk n _ _ => n

/-- `chrt.Schema`. -/
def Chart.schema : Chart → Option JsonBytes
  | .mk _ s _ => s

/-- `chrt.Dependencies()`. -/
def Chart.dependencies : Chart → List Chart
  | .mk _ _ d => d

/-- The Go expression `values[subchart.Name()].(map[string]interface{})`:
`some entries` when the key is present with a map value (the type assertion
succeeds); `none` when the lookup misses (including on a nil map) or the
value is not a map, in which case the assertion panics. -/
def childLookup (values : Values) (name : String) : Option (List (String × JValue)) :=
  match values with
  | none => none
  | some entries =>
    match lookupField entries name with
    | some (.obj m) => some m
    | _ => none

/-- The payload of the Go runtime panic raised by a failed interface type
assertion (the concrete Go text additionally names the offending dynamic
type). -/
def typeAssertionPanicMsg : String :=
  "interface conversion: interface \x7b\x7d is not map[string]interface \x7b\x7d"

/-- Outcome of `ValidateAgainstSchema`: a nil error, a non-nil error, or an
unrecovered runtime panic escaping the call (the function installs no
`recover`). -/
inductive WalkResult where
  | ok
  | err (msg : String)
  | panicked (msg : String)
deriving DecidableEq

/-- Intermediate outcome of the dependency loop: the accumulated report
text, or a panic aborting the walk. -/
inductive ChildrenOut where
  | collected (s : String)
  | panicked (msg : String)
deriving DecidableEq

mutual

/-- jsonschema.go lines 35–58 (`ValidateAgainstSchema`): check the node's
own schema first (writing `<name>:\n<error>` to the builder on failure),
then run the dependency loop, and return an error exactly when the builder
is non-empty. -/
def ValidateAgainstSchema {D V : Type} (E : Engines D V) : Chart → Values → WalkResult
  | .mk name schema deps, values =>
    let own : String :=
      match schema with
      | none => ""
      | some s =>
        match (ValidateAgainstSingleSchema E values s).2 with
        | none => ""
        | some e => name ++ ":\n" ++ e
    match validateDependencies E deps values with
    | .panicked m => .panicked m
    | .collected rest =>
      if own ++ rest = "" then .ok else .err (own ++ rest)
termination_by structural c => c

/-- The dependency loop of jsonschema.go lines 46–51: the unchecked type
assertion panics on a missing or non-map child entry, a panic from the
recursive call propagates, and a non-nil error from the recursive call is
appended to the builder unmodified before the loop continues with the next
sibling. -/
def validateDependencies {D V : Type} (E : Engines D V) : List Chart → Values → ChildrenOut
  | [], _ => .collected ""
  | c :: rest, values =>
    match childLookup values c.name with
    | none => .panicked typeAssertionPanicMsg
    | some sub =>
      match ValidateAgainstSchema E c (some sub) with
      | .panicked m => .panicked m
      | .ok => validateDependencies E rest values
      | .err e =>
        match validateDependencies E rest values with
        | .panicked m => .panicked m
        | .collected s => .collected (e ++ s)
termination_by structural l => l

end

/-- The spec's dialect carve-out condition, stated as the spec states it:
the declared `$schema` is absent (extracted as empty), or does not parse as
a URI, or parses to host `json-schema.org` with one of the three legacy
draft paths.  The legacy engine is selected exactly under this condition;
it is a pure function of the schema bytes. -/
def legacySelected (schemaJSON : JsonBytes) : Prop :=
  extractSchemaField schemaJSON = "" ∨
  parseURL (extractSchemaField schemaJSON) = none ∨
  ∃ u, parseURL (extractSchemaField schemaJSON) = some u ∧
    u.host = "json-schema.org" ∧ u.path ∈ legacyDraftPaths

/-- Boolean form of `legacySelected`, used for its decidability. -/
def legacySelectedB (schemaJSON : JsonBytes) : Bool :=
  extractSchemaField schemaJSON = "" ||
  match parseURL (extractSchemaField schemaJSON) with
  | none => true
  | some u => u.host = "json-schema.org" && legacyDraftPaths.contains u.path

instance (s : JsonBytes) : Decidable (legacySelected s) :=
  decidable_of_iff (legacySelectedB s = true) (by
    unfold legacySelected legacySelectedB
    by_cases he : extractSchemaField s = ""
    · simp [he]
    · cases h : parseURL (extractSchemaField s) with
      | none => simp [he, h]
      | some u => simp [he, h])

mutual

/-- The tree-construction invariant: every declared child bundle name is
present in its parent's values with a map value, recursively. -/
def structuralInvariant : Chart → Values → Bool
  | .mk _ _ deps, values => structuralInvariantList deps values
termination_by structural c => c

/-- List form of `structuralInvariant` over a dependency list. -/
def structuralInvariantList : List Chart → Values → Bool
  | [], _ => true
  | c :: rest, values =>
    match childLookup values c.name with
    | none => false
    | some sub => structuralInvariant c (some sub) && structuralInvariantList rest values
termination_by structural l => l

end

mutual

/-- Specification-side description of the report: one `(name, error)`
section per node whose own schema check fails, in parent-first depth-first
traversal order, and nothing for passing nodes.  A child whose lookup fails
contributes nothing here; this function is only compared with the walk
under `structuralInvariant`. -/
def failingSections {D V : Type} (E : Engines D V) : Chart → Values → List (String × String)
  | .mk name schema deps, values =>
    (match schema with
     | none => []
     | some s =>
       match (ValidateAgainstSingleSchema E values s).2 with
       | none => []
       | some e => [(name, e)]) ++ failingSectionsList E deps values
termination_by structural c => c

/-- List form of `failingSections` over a dependency list. -/
def failingSectionsList {D V : Type} (E : Engines D V) : List Chart → Values → List (String × String)
  | [], _ => []
  | c :: rest, values =>
    (match childLookup values c.name with
     | none => []
     | some sub => failingSections E c (some sub)) ++ failingSectionsList E rest values
termination_by structural l => l

end

/-- Renders a list of `(name, error)` sections in order as
`<name>:\n<error>` blocks. -/
def renderSections : List (String × String) → String
  | [] => ""
  | p :: rest => p.1 ++ ":\n" ++ p.2 ++ renderSections rest

mutual

/-- Whether no node of the tree carries a schema document. -/
def schemaless : Chart → Bool
  | .mk _ schema deps => schema.isNone && schemalessList deps
termination_by structural c => c

/-- List form of `schemaless` over a dependency list. -/
def schemalessList : List Chart → Bool
  | [] => true
  | c :: rest => schemaless c && schemalessList rest
termination_by structural l => l

end

/-- A concrete engine assignment for witnesses: the legacy engine rejects
the schema document consisting of the JSON string `"fail"` with the single
violation description `boom` and accepts everything else; the modern engine
accepts everything. -/
def okEngines : Engines Unit Unit where
  legacyValidate := fun s _ =>
    match s with
    | .wellFormed (.str "fail") => .result ["boom"]
    | _ => .result []
  unmarshalJSON := fun _ => .ok (.ok ())
  addResource := fun _ _ => .ok (.ok ())
  compile := fun _ => .ok (.ok ())
  validate := fun _ _ => .ok none

/-- A concrete engine assignment whose every call panics, exercising the
recover path of `ValidateAgainstSingleSchema`. -/
def panicEngines : Engines Unit Unit where
  legacyValidate := fun _ _ => .panicked "legacy fault"
  unmarshalJSON := fun _ => .panicked "modern fault"
  addResource := fun _ _ => .panicked "modern fault"
  compile := fun _ => .panicked "modern fault"
  validate := fun _ _ => .panicked "modern fault"

/-- A concrete engine assignment whose modern engine rejects every schema
document at the unmarshal step. -/
def badSchemaEngines : Engines Unit Unit where
  legacyValidate := fun _ _ => .result []
  unmarshalJSON := fun _ => .ok (.error "jsonschema: invalid schema document")
  addResource := fun _ _ => .ok (.ok ())
  compile := fun _ => .ok (.ok ())
  validate := fun _ _ => .ok none

/-- A schema document declaring the 2020-12 dialect (routed to the modern
engine). -/
def draft2020Schema : JsonBytes :=
  .wellFormed (.obj [("$schema", .str "https://json-schema.org/draft/2020-12/schema")])

/-- A schema document declaring the draft-07 dialect (the legacy
carve-out). -/
def draft07Schema : JsonBytes :=
  .wellFormed (.obj [("$schema", .str "http://json-schema.org/draft-07/schema#")])

/-- A schema document with no `$schema` declaration. -/
def plainSchema : JsonBytes := .wellFormed (.obj [("type", .str "object")])

/-- The schema document `okEngines` rejects. -/
def failSchema : JsonBytes := .wellFormed (.str "fail")

/-- The full sequence of modern-engine calls made by a run of
`validateUsingNewValidator` that reaches validation; a failing run makes a
prefix of it. -/
def fullModernTrace : List Ev :=
  [.unmarshalSchema, .unmarshalValues, .addResource fixedResourceID,
   .compile fixedResourceID, .modernValidate]

/-- Example tree for the aggregation witnesses: a parent whose schema is
violated, a first child whose schema is violated, and a second child whose
schema is satisfied. -/
def exChart : Chart :=
  .mk "parent" (some failSchema)
    [.mk "c1" (some failSchema) [], .mk "c2" (some plainSchema) []]

/-- Values for `exChart`, satisfying the structural invariant. -/
def exValues : Values := some [("c1", .obj []), ("c2", .obj [])]

/-- A tree whose child name `db` is bound to a non-map value in the parent's
values. -/
def c3Chart : Chart := .mk "root" none [.mk "db" none []]

/-- Values for `c3Chart` in which `db` is a string, not a map. -/
def c3Values : Values := some [("db", .str "not-a-map")]

/-- A fully schema-less tree with one declared child. -/
def c4Chart : Chart := .mk "top" none [.mk "cfg" none []]

/-- Values for `c4Chart` in which `cfg` is a number, not a map. -/
def c4Values : Values := some [("cfg", .num 1)]

end Helm

namespace Helm

example : extractSchemaField (.wellFormed (.obj [("$schema", .str "http://json-schema.org/draft-07/schema#")])) = "http://json-schema.org/draft-07/schema#" := by decide

example : parseURL "http://json-schema.org/draft-07/schema#" = some ⟨"json-schema.org", "/draft-07/schema"⟩ := by decide

example : parseURL "https://json-schema.org/draft/2020-12/schema" = some ⟨"json-schema.org", "/draft/2020-12/schema"⟩ := by decide

example : parseURL "not a url" = some ⟨"", "not a url"⟩ := by decide

example : parseURL "http://x\x01y" = none := by decide

example :
    (ValidateAgainstSingleSchema okEngines (some []) failSchema).2 = some "- boom\n" := by
  decide

example :
    (ValidateAgainstSingleSchema okEngines (some []) draft07Schema).1 = [Ev.legacy] := by
  decide

example :
    ValidateAgainstSingleSchema okEngines (some []) draft2020Schema =
      ([Ev.unmarshalSchema, Ev.unmarshalValues, Ev.addResource fixedResourceID,
        Ev.compile fixedResourceID, Ev.modernValidate], none) := by
  decide

example :
    (ValidateAgainstSingleSchema panicEngines (some []) plainSchema).2 =
      some "unable to validate schema: legacy fault" := by
  decide

example :
    ValidateAgainstSchema okEngines
      (.mk "parent" (some failSchema)
        [.mk "c1" (some failSchema) [], .mk "c2" (some plainSchema) []])
      (some [("c1", .obj []), ("c2", .obj [])]) =
      .err "parent:\n- boom\nc1:\n- boom\n" := by
  decide

example :
    ValidateAgainstSchema okEngines
      (.mk "parent" none [.mk "db" none []]) (some []) =
      .panicked typeAssertionPanicMsg := by
  decide

/-! Helper lemmas shared by the claim theorems. -/

theorem string_length_eq_zero_iff (s : String) : s.length = 0 ↔ s = "" := by
  constructor
  · intro h
    cases s with
    | mk data =>
      cases data with
      | nil => rfl
      | cons c cs => simp [String.length] at h
  · intro h
    subst h
    rfl

theorem string_append_eq_empty_iff (a b : String) : a ++ b = "" ↔ a = "" ∧ b = "" := by
  constructor
  · intro h
    have hl : (a ++ b).length = 0 := by rw [h]; rfl
    rw [String.length_append] at hl
    exact ⟨(string_length_eq_zero_iff a).mp (by omega),
           (string_length_eq_zero_iff b).mp (by omega)⟩
  · rintro ⟨rfl, rfl⟩
    rfl

theorem renderSections_append (a b : List (String × String)) :
    renderSections (a ++ b) = renderSections a ++ renderSections b := by
  induction a with
  | nil => simp [renderSections]
  | cons p rest ih => simp [renderSections, ih, String.append_assoc]

theorem renderSections_cons_ne_empty (p : String × String)
    (rest : List (String × String)) : renderSections (p :: rest) ≠ "" := by
  intro h
  unfold renderSections at h
  rcases (string_append_eq_empty_iff _ _).mp h with ⟨h1, _⟩
  rcases (string_append_eq_empty_iff _ _).mp h1 with ⟨h2, _⟩
  rcases (string_append_eq_empty_iff _ _).mp h2 with ⟨_, h3⟩
  exact absurd h3 (by decide)

theorem renderSections_eq_empty_iff (l : List (String × String)) :
    renderSections l = "" ↔ l = [] := by
  cases l with
  | nil => simp [renderSections]
  | cons p rest => simp [renderSections_cons_ne_empty p rest]

theorem newValidator_of_legacySelected {D V : Type} (E : Engines D V)
    (vj s : JsonBytes) (h : legacySelected s) :
    validateUsingNewValidator E vj s = ([], .notProcessed) := by
  unfold validateUsingNewValidator
  rcases h with he | hn | ⟨u, hu, h1, h2⟩
  · simp [he]
  · by_cases he : extractSchemaField s = ""
    · simp [he]
    · simp [he, hn]
  · by_cases he : extractSchemaField s = ""
    · simp [he]
    · have hc : (u.host = "json-schema.org" && legacyDraftPaths.contains u.path) = true := by
        simp [h1]
        simpa using h2
      rw [if_neg he, hu]
      dsimp only
      rw [if_pos hc]

theorem newValidator_modern_shape {D V : Type} (E : Engines D V)
    (vj s : JsonBytes) (h : ¬ legacySelected s) :
    Ev.legacy ∉ (validateUsingNewValidator E vj s).1 ∧
    (validateUsingNewValidator E vj s).1 ≠ [] ∧
    (∃ rest, (validateUsingNewValidator E vj s).1 ++ rest = fullModernTrace) ∧
    (validateUsingNewValidator E vj s).2 ≠ VOut.notProcessed := by
  unfold legacySelected at h
  push_neg at h
  obtain ⟨he, hn, hu⟩ := h
  unfold validateUsingNewValidator
  rw [if_neg he]
  cases hp : parseURL (extractSchemaField s) with
  | none => exact absurd hp hn
  | some u =>
    have hcond : (u.host = "json-schema.org" && legacyDraftPaths.contains u.path) = false := by
      by_cases hh : u.host = "json-schema.org"
      · have hm := hu u hp hh
        simp [hh]
        simpa using hm
      · simp [hh]
    dsimp only
    rw [if_neg (by rw [hcond]; exact Bool.false_ne_true)]
    rcases E.unmarshalJSON s with (e | d) | m
    · exact ⟨by simp, by simp,
        ⟨[.unmarshalValues, .addResource fixedResourceID, .compile fixedResourceID,
          .modernValidate], by simp [fullModernTrace]⟩, by simp⟩
    · dsimp only
      rcases E.unmarshalJSON vj with (e | w) | m
      · exact ⟨by simp, by simp,
          ⟨[.addResource fixedResourceID, .compile fixedResourceID, .modernValidate],
           by simp [fullModernTrace]⟩, by simp⟩
      · dsimp only
        rcases E.addResource fixedResourceID d with (e | u') | m
        · exact ⟨by simp, by simp,
            ⟨[.compile fixedResourceID, .modernValidate], by simp [fullModernTrace]⟩, by simp⟩
        · dsimp only
          rcases E.compile fixedResourceID with (e | cv) | m
          · exact ⟨by simp, by simp, ⟨[.modernValidate], by simp [fullModernTrace]⟩, by simp⟩
          · dsimp only
            rcases E.validate cv w with e | m
            · exact ⟨by simp, by simp, ⟨[], by simp [fullModernTrace]⟩, by simp⟩
            · exact ⟨by simp, by simp, ⟨[], by simp [fullModernTrace]⟩, by simp⟩
          · exact ⟨by simp, by simp, ⟨[.modernValidate], by simp [fullModernTrace]⟩, by simp⟩
        · exact ⟨by simp, by simp,
            ⟨[.compile fixedResourceID, .modernValidate], by simp [fullModernTrace]⟩, by simp⟩
      · exact ⟨by simp, by simp,
          ⟨[.addResource fixedResourceID, .compile fixedResourceID, .modernValidate],
           by simp [fullModernTrace]⟩, by simp⟩
    · exact ⟨by simp, by simp,
        ⟨[.unmarshalValues, .addResource fixedResourceID, .compile fixedResourceID,
          .modernValidate], by simp [fullModernTrace]⟩, by simp⟩

theorem singleSchema_of_legacySelected {D V : Type} (E : Engines D V)
    (values : Values) (s : JsonBytes) (h : legacySelected s) :
    ValidateAgainstSingleSchema E values s =
      ([Ev.legacy],
       match E.legacyValidate s (effectiveValuesJSON values) with
       | .panicked m => some ("unable to validate schema: " ++ m)
       | .err m => some m
       | .result [] => none
       | .result (d :: rest) => some (renderViolations (d :: rest))) := by
  unfold ValidateAgainstSingleSchema
  dsimp only
  rw [newValidator_of_legacySelected E (effectiveValuesJSON values) s h]
  dsimp only
  cases hl : E.legacyValidate s (effectiveValuesJSON values) with
  | err m => simp
  | result descs => cases descs <;> simp
  | panicked m => simp

theorem singleSchema_modern {D V : Type} (E : Engines D V)
    (values : Values) (s : JsonBytes) (h : ¬ legacySelected s) :
    (ValidateAgainstSingleSchema E values s).1 =
      (validateUsingNewValidator E (effectiveValuesJSON values) s).1 ∧
    (∀ e, (validateUsingNewValidator E (effectiveValuesJSON values) s).2 = .processed e →
      (ValidateAgainstSingleSchema E values s).2 = e) ∧
    (∀ m, (validateUsingNewValidator E (effectiveValuesJSON values) s).2 = .panicked m →
      (ValidateAgainstSingleSchema E values s).2 =
        some ("unable to validate schema: " ++ m)) := by
  have hs := (newValidator_modern_shape E (effectiveValuesJSON values) s h).2.2.2
  rcases hv : validateUsingNewValidator E (effectiveValuesJSON values) s with ⟨tr, out⟩
  rw [hv] at hs
  unfold ValidateAgainstSingleSchema
  dsimp only
  rw [hv]
  cases out with
  | notProcessed => exact absurd rfl hs
  | processed e =>
    refine ⟨rfl, ?_, ?_⟩
    · intro e' he'
      simp only [VOut.processed.injEq] at he'
      rw [← he']
    · intro m hm
      simp at hm
  | panicked m =>
    refine ⟨rfl, ?_, ?_⟩
    · intro e' he'
      simp at he'
    · intro m' hm'
      simp only [VOut.panicked.injEq] at hm'
      rw [← hm']

mutual

theorem walk_collects {D V : Type} (E : Engines D V) (c : Chart) (v : Values)
    (h : structuralInvariant c v = true) :
    ValidateAgainstSchema E c v =
      (if renderSections (failingSections E c v) = "" then WalkResult.ok
       else WalkResult.err (renderSections (failingSections E c v))) := by
  cases c with
  | mk name schema deps =>
    have hd : structuralInvariantList deps v = true := by
      unfold structuralInvariant at h
      exact h
    have hrec := deps_collect E deps v hd
    unfold ValidateAgainstSchema
    rw [hrec]
    unfold failingSections
    rw [renderSections_append]
    cases schema with
    | none => rfl
    | some s =>
      cases hss : (ValidateAgainstSingleSchema E v s).2 with
      | none =>
        dsimp only
        rw [hss]
        rfl
      | some e =>
        dsimp only
        rw [hss]
        simp only [renderSections, String.append_empty, String.append_assoc]

theorem deps_collect {D V : Type} (E : Engines D V) (deps : List Chart) (v : Values)
    (h : structuralInvariantList deps v = true) :
    validateDependencies E deps v =
      ChildrenOut.collected (renderSections (failingSectionsList E deps v)) := by
  cases deps with
  | nil => rfl
  | cons c rest =>
    unfold structuralInvariantList at h
    cases hl : childLookup v c.name with
    | none =>
      rw [hl] at h
      cases h
    | some sub =>
      rw [hl] at h
      dsimp only at h
      rw [Bool.and_eq_true] at h
      obtain ⟨h1, h2⟩ := h
      have hc := walk_collects E c (some sub) h1
      have hr := deps_collect E rest v h2
      unfold validateDependencies
      rw [hl]
      dsimp only
      rw [hc]
      unfold failingSectionsList
      rw [hl]
      dsimp only
      rw [renderSections_append]
      by_cases hS : renderSections (failingSections E c (some sub)) = ""
      · rw [if_pos hS, hS]
        dsimp only
        rw [hr]
        rfl
      · rw [if_neg hS]
        dsimp only
        rw [hr]

end

mutual

theorem walk_panic_char {D V : Type} (E : Engines D V) (c : Chart) (v : Values) :
    (∀ m, ValidateAgainstSchema E c v = .panicked m →
        m = typeAssertionPanicMsg ∧ structuralInvariant c v = false) ∧
    (structuralInvariant c v = false →
        ValidateAgainstSchema E c v = .panicked typeAssertionPanicMsg) := by
  cases c with
  | mk name schema deps =>
    have hd := deps_panic_char E deps v
    constructor
    · intro m hm
      unfold ValidateAgainstSchema at hm
      dsimp only at hm
      cases hdeps : validateDependencies E deps v with
      | panicked pm =>
        rw [hdeps] at hm
        dsimp only at hm
        injection hm with h'
        obtain ⟨h1, h2⟩ := hd.1 pm hdeps
        refine ⟨h' ▸ h1, ?_⟩
        unfold structuralInvariant
        exact h2
      | collected s =>
        rw [hdeps] at hm
        dsimp only at hm
        split at hm <;> cases hm
    · intro hf
      unfold structuralInvariant at hf
      have hp := hd.2 hf
      unfold ValidateAgainstSchema
      dsimp only
      rw [hp]

theorem deps_panic_char {D V : Type} (E : Engines D V) (deps : List Chart) (v : Values) :
    (∀ m, validateDependencies E deps v = .panicked m →
        m = typeAssertionPanicMsg ∧ structuralInvariantList deps v = false) ∧
    (structuralInvariantList deps v = false →
        validateDependencies E deps v = .panicked typeAssertionPanicMsg) := by
  cases deps with
  | nil =>
    constructor
    · intro m hm
      unfold validateDependencies at hm
      cases hm
    · intro hf
      unfold structuralInvariantList at hf
      cases hf
  | cons c rest =>
    have hrest := deps_panic_char E rest v
    constructor
    · intro m hm
      unfold validateDependencies at hm
      cases hl : childLookup v c.name with
      | none =>
        rw [hl] at hm
        dsimp only at hm
        injection hm with h'
        refine ⟨h'.symm, ?_⟩
        unfold structuralInvariantList
        rw [hl]
      | some sub =>
        rw [hl] at hm
        dsimp only at hm
        cases hw : ValidateAgainstSchema E c (some sub) with
        | panicked pm =>
          rw [hw] at hm
          dsimp only at hm
          injection hm with h'
          obtain ⟨h1, h2⟩ := (walk_panic_char E c (some sub)).1 pm hw
          refine ⟨h' ▸ h1, ?_⟩
          unfold structuralInvariantList
          rw [hl]
          dsimp only
          simp [h2]
        | ok =>
          rw [hw] at hm
          dsimp only at hm
          obtain ⟨h1, h2⟩ := hrest.1 m hm
          refine ⟨h1, ?_⟩
          unfold structuralInvariantList
          rw [hl]
          dsimp only
          simp [h2]
        | err e =>
          rw [hw] at hm
          dsimp only at hm
          cases hr : validateDependencies E rest v with
          | panicked pm =>
            rw [hr] at hm
            dsimp only at hm
            injection hm with h'
            obtain ⟨h1, h2⟩ := hrest.1 pm hr
            refine ⟨h' ▸ h1, ?_⟩
            unfold structuralInvariantList
            rw [hl]
            dsimp only
            simp [h2]
          | collected s2 =>
            rw [hr] at hm
            dsimp only at hm
            cases hm
    · intro hf
      unfold structuralInvariantList at hf
      cases hl : childLookup v c.name with
      | none =>
        unfold validateDependencies
        rw [hl]
      | some sub =>
        rw [hl] at hf
        dsimp only at hf
        unfold validateDependencies
        rw [hl]
        dsimp only
        cases ha : structuralInvariant c (some sub) with
        | false =>
          rw [(walk_panic_char E c (some sub)).2 ha]
        | true =>
          rw [ha] at hf
          rw [Bool.true_and] at hf
          cases hw : ValidateAgainstSchema E c (some sub) with
          | panicked pm =>
            obtain ⟨_, h2⟩ := (walk_panic_char E c (some sub)).1 pm hw
            rw [ha] at h2
            cases h2
          | ok =>
            dsimp only
            exact hrest.2 hf
          | err e =>
            dsimp only
            rw [hrest.2 hf]

end

mutual

theorem schemaless_sections_nil {D V : Type} (E : Engines D V) (c : Chart)
    (v : Values) (hs : schemaless c = true) : failingSections E c v = [] := by
  cases c with
  | mk name schema deps =>
    unfold schemaless at hs
    rw [Bool.and_eq_true] at hs
    obtain ⟨h1, h2⟩ := hs
    unfold failingSections
    cases schema with
    | none =>
      dsimp only
      rw [List.nil_append]
      exact schemaless_sections_list_nil E deps v h2
    | some s => simp at h1

theorem schemaless_sections_list_nil {D V : Type} (E : Engines D V)
    (deps : List Chart) (v : Values) (hs : schemalessList deps = true) :
    failingSectionsList E deps v = [] := by
  cases deps with
  | nil => rfl
  | cons c rest =>
    unfold schemalessList at hs
    rw [Bool.and_eq_true] at hs
    obtain ⟨h1, h2⟩ := hs
    unfold failingSectionsList
    cases hl : childLookup v c.name with
    | none =>
      dsimp only
      rw [List.nil_append]
      exact schemaless_sections_list_nil E rest v h2
    | some sub =>
      dsimp only
      rw [schemaless_sections_nil E c (some sub) h1, List.nil_append]
      exact schemaless_sections_list_nil E rest v h2

end

theorem mem_fullModernTrace_isModern : ∀ e ∈ fullModernTrace, e.isModern = true := by
  decide

theorem newValidator_modern_unfold {D V : Type} (E : Engines D V) (vj s : JsonBytes)
    (h : ¬ legacySelected s) :
    validateUsingNewValidator E vj s =
      (match E.unmarshalJSON s with
       | .panicked m => ([.unmarshalSchema], .panicked m)
       | .ok (.error e) => ([.unmarshalSchema], .processed (some e))
       | .ok (.ok schema) =>
         match E.unmarshalJSON vj with
         | .panicked m => ([.unmarshalSchema, .unmarshalValues], .panicked m)
         | .ok (.error e) =>
           ([.unmarshalSchema, .unmarshalValues], .processed (some e))
         | .ok (.ok values) =>
           match E.addResource fixedResourceID schema with
           | .panicked m =>
             ([.unmarshalSchema, .unmarshalValues, .addResource fixedResourceID],
              .panicked m)
           | .ok (.error e) =>
             ([.unmarshalSchema, .unmarshalValues, .addResource fixedResourceID],
              .processed (some e))
           | .ok (.ok _) =>
             match E.compile fixedResourceID with
             | .panicked m =>
               ([.unmarshalSchema, .unmarshalValues, .addResource fixedResourceID,
                 .compile fixedResourceID], .panicked m)
             | .ok (.error e) =>
               ([.unmarshalSchema, .unmarshalValues, .addResource fixedResourceID,
                 .compile fixedResourceID], .processed (some e))
             | .ok (.ok validator) =>
               match E.validate validator values with
               | .panicked m =>
                 ([.unmarshalSchema, .unmarshalValues, .addResource fixedResourceID,
                   .compile fixedResourceID, .modernValidate], .panicked m)
               | .ok e =>
                 ([.unmarshalSchema, .unmarshalValues, .addResource fixedResourceID,
                   .compile fixedResourceID, .modernValidate], .processed e)) := by
  unfold legacySelected at h
  push_neg at h
  obtain ⟨he, hn, hu⟩ := h
  unfold validateUsingNewValidator
  rw [if_neg he]
  cases hp : parseURL (extractSchemaField s) with
  | none => exact absurd hp hn
  | some u =>
    have hcond : (u.host = "json-schema.org" && legacyDraftPaths.contains u.path) = false := by
      by_cases hh : u.host = "json-schema.org"
      · have hm := hu u hp hh
        simp [hh]
        simpa using hm
      · simp [hh]
    dsimp only
    rw [if_neg (by rw [hcond]; exact Bool.false_ne_true)]

/-! The claim theorems. -/

/-- C1: engine selection follows the fixed dialect rule and is a pure
function of the schema bytes.  Under `legacySelected` — the `$schema`
field absent or extracted empty, or not parsable as a URI, or parsing to
host `json-schema.org` with path exactly one of the three legacy draft
paths — the node's check makes exactly one engine call, to the legacy
engine.  Otherwise the legacy engine is never called and at least one
modern-engine call is made; every call in the trace is a modern one.  The
selection condition reads only the schema bytes, and the statement holds
for every engine behaviour and every values document, so exactly one
engine runs per node. -/
theorem C1_dialect_routing {D V : Type} (E : Engines D V) (values : Values)
    (schemaJSON : JsonBytes) :
    (legacySelected schemaJSON →
        (ValidateAgainstSingleSchema E values schemaJSON).1 = [Ev.legacy]) ∧
    (¬ legacySelected schemaJSON →
        Ev.legacy ∉ (ValidateAgainstSingleSchema E values schemaJSON).1 ∧
        (ValidateAgainstSingleSchema E values schemaJSON).1 ≠ [] ∧
        ∀ e ∈ (ValidateAgainstSingleSchema E values schemaJSON).1,
          e.isModern = true) := by
  constructor
  · intro h
    rw [singleSchema_of_legacySelected E values schemaJSON h]
  · intro h
    have hms := newValidator_modern_shape E (effectiveValuesJSON values) schemaJSON h
    rw [(singleSchema_modern E values schemaJSON h).1]
    refine ⟨hms.1, hms.2.1, ?_⟩
    obtain ⟨rest, hrest⟩ := hms.2.2.1
    intro e he
    have hmem : e ∈ fullModernTrace := by
      rw [← hrest]
      exact List.mem_append_left _ he
    exact mem_fullModernTrace_isModern e hmem

/-- Witness for C1: the draft-07 carve-out schema routes to exactly one
legacy-engine call. -/
theorem C1_dialect_routing_witness :
    legacySelected draft07Schema ∧
    (ValidateAgainstSingleSchema okEngines (some []) draft07Schema).1 = [Ev.legacy] :=
  ⟨by decide, (C1_dialect_routing okEngines (some []) draft07Schema).1 (by decide)⟩

/-- C9: schema bytes that are not valid JSON route to the legacy engine:
the `$schema` extraction discards the unmarshal error and yields the empty
dialect, `validateUsingNewValidator` returns `(false, nil)` with no engine
call, and the legacy engine is the single engine consulted — routing never
fails on unparsable schema bytes. -/
theorem C9_unparsable_schema_routes_legacy {D V : Type} (E : Engines D V)
    (values : Values) (raw : String) :
    extractSchemaField (.malformed raw) = "" ∧
    validateUsingNewValidator E (effectiveValuesJSON values) (.malformed raw) =
      ([], .notProcessed) ∧
    (ValidateAgainstSingleSchema E values (.malformed raw)).1 = [Ev.legacy] := by
  refine ⟨rfl, ?_, ?_⟩
  · exact newValidator_of_legacySelected E (effectiveValuesJSON values)
      (.malformed raw) (Or.inl rfl)
  · rw [singleSchema_of_legacySelected E values (.malformed raw) (Or.inl rfl)]

/-- C6: the deferred recover of `ValidateAgainstSingleSchema` converts any
panic raised during the check — whether escaping the modern-engine path or
raised inside the legacy engine call — into an error reading
`unable to validate schema: ` followed by the fault's description; the
embedded return type has no panic alternative, so the call never
propagates a panic to its caller. -/
theorem C6_panic_recovered {D V : Type} (E : Engines D V) (values : Values)
    (schemaJSON : JsonBytes) :
    (∀ m, (validateUsingNewValidator E (effectiveValuesJSON values) schemaJSON).2 =
        VOut.panicked m →
      (ValidateAgainstSingleSchema E values schemaJSON).2 =
        some ("unable to validate schema: " ++ m)) ∧
    (∀ m, legacySelected schemaJSON →
      E.legacyValidate schemaJSON (effectiveValuesJSON values) = .panicked m →
      (ValidateAgainstSingleSchema E values schemaJSON).2 =
        some ("unable to validate schema: " ++ m)) := by
  constructor
  · intro m hm
    by_cases h : legacySelected schemaJSON
    · rw [newValidator_of_legacySelected E _ _ h] at hm
      simp at hm
    · exact (singleSchema_modern E values schemaJSON h).2.2 m hm
  · intro m hsel hleg
    rw [singleSchema_of_legacySelected E values schemaJSON hsel]
    dsimp only
    rw [hleg]

/-- Witness for C6: every modern-engine call of `panicEngines` panics and
the 2020-12 schema routes there; the result is the recovered error. -/
theorem C6_panic_recovered_witness :
    (validateUsingNewValidator panicEngines (effectiveValuesJSON (some []))
        draft2020Schema).2 = VOut.panicked "modern fault" ∧
    (ValidateAgainstSingleSchema panicEngines (some []) draft2020Schema).2 =
      some ("unable to validate schema: " ++ "modern fault") :=
  ⟨by decide,
   (C6_panic_recovered panicEngines (some []) draft2020Schema).1 "modern fault" (by decide)⟩

/-- C8: when the modern engine is selected, the legacy engine is never
consulted; the engine-call trace is a prefix of the full modern pipeline,
in which the schema is registered under the single fixed synthetic
resource identifier before that same identifier is compiled; a schema that
fails to unmarshal returns that error immediately after the first call,
and a registered schema that fails to compile returns that error
immediately after the compile call — in both cases before any values
validation. -/
theorem C8_malformed_modern_schema {D V : Type} (E : Engines D V) (values : Values)
    (schemaJSON : JsonBytes) (h : ¬ legacySelected schemaJSON) :
    Ev.legacy ∉ (ValidateAgainstSingleSchema E values schemaJSON).1 ∧
    (∃ rest, (ValidateAgainstSingleSchema E values schemaJSON).1 ++ rest =
        fullModernTrace) ∧
    (∀ e, E.unmarshalJSON schemaJSON = .ok (.error e) →
        ValidateAgainstSingleSchema E values schemaJSON =
          ([Ev.unmarshalSchema], some e)) ∧
    (∀ d w e, E.unmarshalJSON schemaJSON = .ok (.ok d) →
        E.unmarshalJSON (effectiveValuesJSON values) = .ok (.ok w) →
        E.addResource fixedResourceID d = .ok (.ok ()) →
        E.compile fixedResourceID = .ok (.error e) →
        ValidateAgainstSingleSchema E values schemaJSON =
          ([Ev.unmarshalSchema, Ev.unmarshalValues, Ev.addResource fixedResourceID,
            Ev.compile fixedResourceID], some e)) := by
  have hms := newValidator_modern_shape E (effectiveValuesJSON values) schemaJSON h
  have htr := (singleSchema_modern E values schemaJSON h).1
  refine ⟨?_, ?_, ?_, ?_⟩
  · rw [htr]
    exact hms.1
  · rw [htr]
    exact hms.2.2.1
  · intro e he
    unfold ValidateAgainstSingleSchema
    dsimp only
    rw [newValidator_modern_unfold E _ _ h, he]
  · intro d w e h1 h2 h3 h4
    unfold ValidateAgainstSingleSchema
    dsimp only
    rw [newValidator_modern_unfold E _ _ h, h1]
    dsimp only
    rw [h2]
    dsimp only
    rw [h3]
    dsimp only
    rw [h4]

/-- Witness for C8: `badSchemaEngines` rejects every schema document at the
unmarshal step; the 2020-12 schema routes to the modern engine and the
check returns the unmarshal error after exactly one engine call. -/
theorem C8_malformed_modern_schema_witness :
    ¬ legacySelected draft2020Schema ∧
    badSchemaEngines.unmarshalJSON draft2020Schema =
      .ok (.error "jsonschema: invalid schema document") ∧
    ValidateAgainstSingleSchema badSchemaEngines (some []) draft2020Schema =
      ([Ev.unmarshalSchema], some "jsonschema: invalid schema document") :=
  ⟨by decide, rfl,
   (C8_malformed_modern_schema badSchemaEngines (some []) draft2020Schema
      (by decide)).2.2.1 "jsonschema: invalid schema document" rfl⟩

/-- C2: under the structural invariant the walk never short-circuits: it
returns `ok` exactly when no node's own schema check fails, and otherwise
an error whose text is the concatenation, in parent-first depth-first
traversal order, of exactly one section per failing node (and nothing for
passing nodes), the parent's own section first, then the children's in
dependency order. -/
theorem C2_aggregation_no_short_circuit {D V : Type} (E : Engines D V)
    (c : Chart) (v : Values) (h : structuralInvariant c v = true) :
    ValidateAgainstSchema E c v =
      (if failingSections E c v = [] then WalkResult.ok
       else WalkResult.err (renderSections (failingSections E c v))) := by
  rw [walk_collects E c v h]
  by_cases hS : failingSections E c v = []
  · simp [hS, renderSections]
  · rw [if_neg (fun hh => hS ((renderSections_eq_empty_iff _).mp hh)), if_neg hS]

/-- Witness for C2: a parent with a violated schema, a first child with a
violated schema and a second child with a satisfied schema yields exactly
two sections, the parent's then the first child's. -/
theorem C2_aggregation_witness :
    structuralInvariant exChart exValues = true ∧
    failingSections okEngines exChart exValues =
      [("parent", "- boom\n"), ("c1", "- boom\n")] ∧
    ValidateAgainstSchema okEngines exChart exValues =
      (if failingSections okEngines exChart exValues = [] then WalkResult.ok
       else WalkResult.err (renderSections (failingSections okEngines exChart exValues))) :=
  ⟨by decide, by decide,
   C2_aggregation_no_short_circuit okEngines exChart exValues (by decide)⟩

/-- C3 counterexample: on a tree whose child `db` is bound to a non-map
value, `ValidateAgainstSchema` does not raise any error value — it raises
an unrecovered runtime panic (the failed interface type assertion), i.e.
an uncontrolled crash, contradicting the claim that a structural mismatch
surfaces as a fatal error distinct from an uncontrolled crash. -/
theorem C3_counterexample_panic :
    structuralInvariant c3Chart c3Values = false ∧
    ValidateAgainstSchema okEngines c3Chart c3Values =
      WalkResult.panicked typeAssertionPanicMsg := by
  decide

/-- C3 (amended): a declared child bundle name that is missing or bound to
a non-map value does not produce a distinct structural error value and is
not aggregated as a validation failure; instead the walk raises an
unrecovered runtime panic (the failed interface type assertion), and it
panics exactly when the structural invariant fails; every panic of the
walk carries the type-assertion message. -/
theorem C3_mismatch_panics {D V : Type} (E : Engines D V) (c : Chart) (v : Values) :
    (ValidateAgainstSchema E c v = WalkResult.panicked typeAssertionPanicMsg ↔
        structuralInvariant c v = false) ∧
    (∀ m, ValidateAgainstSchema E c v = WalkResult.panicked m →
        m = typeAssertionPanicMsg) := by
  refine ⟨⟨?_, ?_⟩, ?_⟩
  · intro h
    exact ((walk_panic_char E c v).1 _ h).2
  · intro h
    exact (walk_panic_char E c v).2 h
  · intro m hm
    exact ((walk_panic_char E c v).1 m hm).1

/-- Witness for C3 (amended): a child name missing from the parent's values
makes the walk panic with the type-assertion message. -/
theorem C3_mismatch_panics_witness :
    structuralInvariant (Chart.mk "root2" none [Chart.mk "kv" none []]) (some []) =
      false ∧
    ValidateAgainstSchema okEngines (Chart.mk "root2" none [Chart.mk "kv" none []])
      (some []) = WalkResult.panicked typeAssertionPanicMsg :=
  ⟨by decide,
   (C3_mismatch_panics okEngines (Chart.mk "root2" none [Chart.mk "kv" none []])
      (some [])).1.mpr (by decide)⟩

/-- C4 counterexample: a fully schema-less tree does not succeed regardless
of values content — with the child's name bound to a non-map value the walk
panics instead of returning success. -/
theorem C4_counterexample_schemaless_failure :
    schemaless c4Chart = true ∧
    ValidateAgainstSchema okEngines c4Chart c4Values ≠ WalkResult.ok := by
  have hw : ValidateAgainstSchema okEngines c4Chart c4Values =
      WalkResult.panicked typeAssertionPanicMsg := by decide
  refine ⟨by decide, ?_⟩
  rw [hw]
  exact fun h => WalkResult.noConfusion h

/-- C4 (amended): a tree in which no node carries a schema document
validates successfully for every values tree satisfying the structural
invariant; without the invariant the walk panics on the type assertion
even when no schema exists anywhere. -/
theorem C4_schemaless_success {D V : Type} (E : Engines D V) (c : Chart)
    (v : Values) (hs : schemaless c = true)
    (hi : structuralInvariant c v = true) :
    ValidateAgainstSchema E c v = WalkResult.ok := by
  rw [walk_collects E c v hi, schemaless_sections_nil E c v hs]
  rfl

/-- Witness for C4 (amended): a two-node schema-less tree with the child's
map present succeeds. -/
theorem C4_schemaless_success_witness :
    schemaless (Chart.mk "bare" none [Chart.mk "sub" none []]) = true ∧
    structuralInvariant (Chart.mk "bare" none [Chart.mk "sub" none []])
      (some [("sub", .obj [("x", .num 3)])]) = true ∧
    ValidateAgainstSchema okEngines (Chart.mk "bare" none [Chart.mk "sub" none []])
      (some [("sub", .obj [("x", .num 3)])]) = WalkResult.ok :=
  ⟨by decide, by decide,
   C4_schemaless_success okEngines (Chart.mk "bare" none [Chart.mk "sub" none []])
     (some [("sub", .obj [("x", .num 3)])]) (by decide) (by decide)⟩

/-- C5: a values map whose canonical serialization is the JSON `null`
document is validated as the empty object document — the substitution step
rewrites it to `{}`; consequently a bundle with nil or empty values and a
legacy-routed schema that accepts the empty object document (such as one
requiring only `type: object` with no required properties) validates
successfully. -/
theorem C5_null_values_empty_object {D V : Type} (E : Engines D V)
    (schemaJSON : JsonBytes) (hsel : legacySelected schemaJSON)
    (hacc : E.legacyValidate schemaJSON (.wellFormed (.obj [])) = .result []) :
    (∀ values : Values, serializeValues values = .wellFormed .null →
        effectiveValuesJSON values = .wellFormed (.obj [])) ∧
    (ValidateAgainstSingleSchema E none schemaJSON).2 = none ∧
    (ValidateAgainstSingleSchema E (some []) schemaJSON).2 = none := by
  refine ⟨?_, ?_, ?_⟩
  · intro values hnull
    unfold effectiveValuesJSON
    rw [hnull]
    rfl
  · rw [singleSchema_of_legacySelected E none schemaJSON hsel]
    dsimp only
    rw [show effectiveValuesJSON none = .wellFormed (.obj []) from rfl, hacc]
  · rw [singleSchema_of_legacySelected E (some []) schemaJSON hsel]
    dsimp only
    rw [show effectiveValuesJSON (some []) = .wellFormed (.obj []) from rfl, hacc]

/-- Witness for C5: `okEngines` accepts the empty object document against
`plainSchema` (no dialect declared, legacy-routed); nil values validate
successfully. -/
theorem C5_null_values_empty_object_witness :
    legacySelected plainSchema ∧
    okEngines.legacyValidate plainSchema (.wellFormed (.obj [])) = .result [] ∧
    (ValidateAgainstSingleSchema okEngines none plainSchema).2 = none :=
  ⟨by decide, by decide,
   (C5_null_values_empty_object okEngines plainSchema (by decide) (by decide)).2.1⟩

/-- C7: the rendered report is one `<name>:\n<violations>` block per
failing bundle, concatenated in traversal order (`renderSections` of the
failing sections); and when the legacy engine produced the failure, the
violation text puts each individual violation on its own line prefixed
with a dash and a space. -/
theorem C7_report_format {D V : Type} (E : Engines D V) :
    (∀ (c : Chart) (v : Values), structuralInvariant c v = true →
      ∀ e, ValidateAgainstSchema E c v = WalkResult.err e →
        e = renderSections (failingSections E c v)) ∧
    (∀ (values : Values) (schemaJSON : JsonBytes) (d : String) (ds : List String),
      legacySelected schemaJSON →
      E.legacyValidate schemaJSON (effectiveValuesJSON values) = .result (d :: ds) →
      (ValidateAgainstSingleSchema E values schemaJSON).2 =
        some ("- " ++ d ++ "\n" ++ renderViolations ds)) := by
  constructor
  · intro c v h e he
    rw [walk_collects E c v h] at he
    by_cases hS : renderSections (failingSections E c v) = ""
    · rw [if_pos hS] at he
      cases he
    · rw [if_neg hS] at he
      injection he with h'
      exact h'.symm
  · intro values schemaJSON d ds hsel hleg
    rw [singleSchema_of_legacySelected E values schemaJSON hsel]
    dsimp only
    rw [hleg]
    rfl

/-- Witness for C7: the two-failure example tree renders as two blocks in
traversal order, each legacy violation line dash-prefixed. -/
theorem C7_report_format_witness :
    structuralInvariant exChart exValues = true ∧
    ValidateAgainstSchema okEngines exChart exValues =
      WalkResult.err "parent:\n- boom\nc1:\n- boom\n" ∧
    "parent:\n- boom\nc1:\n- boom\n" =
      renderSections (failingSections okEngines exChart exValues) :=
  ⟨by decide, by decide,
   (C7_report_format okEngines).1 exChart exValues (by decide)
     "parent:\n- boom\nc1:\n- boom\n" (by decide)⟩

/-- C10: a non-nil error returned by a child's recursive validation — of
whatever origin — is appended to the parent's builder as plain text,
indistinguishable from any other violation text, and the loop continues
with the remaining siblings; the error never aborts the tree walk. -/
theorem C10_child_error_continues {D V : Type} (E : Engines D V) (c : Chart)
    (rest : List Chart) (values : Values) (sub : List (String × JValue))
    (e : String) (hl : childLookup values c.name = some sub)
    (he : ValidateAgainstSchema E c (some sub) = WalkResult.err e) :
    validateDependencies E (c :: rest) values =
      (match validateDependencies E rest values with
       | .panicked m => .panicked m
       | .collected s => .collected (e ++ s)) := by
  conv_lhs => unfold validateDependencies
  rw [hl]
  dsimp only
  rw [he]

/-- Witness for C10: the failing first child's error text is appended and
the second sibling is still processed. -/
theorem C10_child_error_continues_witness :
    childLookup exValues "c1" = some [] ∧
    ValidateAgainstSchema okEngines (Chart.mk "c1" (some failSchema) [])
      (some []) = WalkResult.err "c1:\n- boom\n" ∧
    validateDependencies okEngines
      [Chart.mk "c1" (some failSchema) [], Chart.mk "c2" (some plainSchema) []]
      exValues =
      (match validateDependencies okEngines [Chart.mk "c2" (some plainSchema) []]
          exValues with
       | .panicked m => .panicked m
       | .collected s => .collected ("c1:\n- boom\n" ++ s)) :=
  ⟨rfl, by decide,
   C10_child_error_continues okEngines (Chart.mk "c1" (some failSchema) [])
     [Chart.mk "c2" (some plainSchema) []] exValues [] "c1:\n- boom\n"
     rfl (by decide)⟩

end Helm
